import Mathlib

/-!
Verification of the color plugin (`color_plugin.py`).

The development shallowly embeds the two classes of the source file:

* `ColorDatabase` — the sqlite-backed table `colors(r, g, b, name)` with
  primary key `(r, g, b)`.  The table is modelled as a list of records in
  rowid (insertion) order; `INSERT OR REPLACE` deletes the conflicting row
  and appends the fresh one, which is exactly what sqlite does with a
  primary-key conflict.
* `ColorLookup` — the resolver carrying an `lru_cache(maxsize=2048)` wrapped
  around `get_color_name`.  The cache is modelled explicitly as an
  association list in most-recently-used-first order, and every operation
  is written in state-passing style.  The field `accesses` instruments the
  number of `sqlite3.connect` calls made on the lookup path, which the spec's
  "call-counting stub store" properties are about.

Python `int(s)` / `int(s, 16)` string parsing is embedded by `pyInt`
(surrounding whitespace, an optional single sign, then a non-empty digit
run); Python string slicing `s[i:i+2]` is embedded on `List Char`, where
out-of-range slices silently truncate exactly as in Python.
-/

/-- Value of a hexadecimal digit character, as accepted by Python
`int(_, 16)`: `0-9`, `a-f`, `A-F`. -/
def hexDigitVal (c : Char) : Option Nat :=
  if '0' ≤ c ∧ c ≤ '9' then some (c.toNat - '0'.toNat)
  else if 'a' ≤ c ∧ c ≤ 'f' then some (c.toNat - 'a'.toNat + 10)
  else if 'A' ≤ c ∧ c ≤ 'F' then some (c.toNat - 'A'.toNat + 10)
  else none

/-- Value of a decimal digit character, as accepted by Python `int(_)`. -/
def decDigitVal (c : Char) : Option Nat :=
  if '0' ≤ c ∧ c ≤ '9' then some (c.toNat - '0'.toNat) else none

/-- Accumulating evaluation of a digit run; `none` as soon as a character is
not a digit of the base. -/
def digitsValCore (dv : Char → Option Nat) (base : Nat) (acc : Nat) :
    List Char → Option Nat
  | [] => some acc
  | c :: rest =>
    match dv c with
    | some d => digitsValCore dv base (base * acc + d) rest
    | none => none

/-- Value of a non-empty digit run; an empty run is a parse error
(`int("")` raises `ValueError`). -/
def digitsVal (dv : Char → Option Nat) (base : Nat) : List Char → Option Nat
  | [] => none
  | cs => digitsValCore dv base 0 cs

/-- Python `str.strip()` on a character list: drop whitespace from both
ends. -/
def pyStrip (cs : List Char) : List Char :=
  ((cs.dropWhile Char.isWhitespace).reverse.dropWhile Char.isWhitespace).reverse

/-- Python `int(s, base)` on a character list: strip surrounding whitespace,
allow one optional sign, then require a non-empty digit run.  (Underscore
separators and the `0x` prefix of full Python never parse in the ≤ 2
character slices this program feeds to `int`, so they are not modelled.) -/
def pyInt (dv : Char → Option Nat) (base : Nat) (cs : List Char) : Option Int :=
  match pyStrip cs with
  | [] => none
  | c :: rest =>
    if c = '-' then (digitsVal dv base rest).map (fun n => -(n : Int))
    else if c = '+' then (digitsVal dv base rest).map (fun n => (n : Int))
    else (digitsVal dv base (c :: rest)).map (fun n => (n : Int))

/-- Python `int(s, 16)`. -/
def pyIntHex (cs : List Char) : Option Int := pyInt hexDigitVal 16 cs

/-- Python `int(s)`. -/
def pyIntDec (cs : List Char) : Option Int := pyInt decDigitVal 10 cs

/-- Python slice `s[i:i+2]` on a character list (truncating silently when the
string is shorter, as Python slices do). -/
def slice2 (cs : List Char) (i : Nat) : List Char := (cs.drop i).take 2

/-- Lowercase hex digit character for `d < 16`, as produced by Python `%x`
formatting. -/
def hexChar (d : Nat) : Char :=
  if d < 10 then Char.ofNat ('0'.toNat + d) else Char.ofNat ('a'.toNat + d - 10)

/-- Fuel-driven minimal lowercase hex digit expansion (mirrors
`Nat.toDigitsCore`); the fuel `n+1` always suffices. -/
def natToHexAux : Nat → Nat → List Char → List Char
  | 0, _, acc => acc
  | fuel + 1, n, acc =>
    if n < 16 then hexChar n :: acc
    else natToHexAux fuel (n / 16) (hexChar (n % 16) :: acc)

/-- Minimal lowercase hexadecimal digits of `n` (`0 ↦ "0"`), as produced by
Python `"%x" % n` for `n ≥ 0`. -/
def natToHex (n : Nat) : List Char := natToHexAux (n + 1) n []

/-- Python format `f"{n:02x}"`: zero-pad the digits to total width 2, the
sign occupying one column for negative inputs. -/
def format02x (n : Int) : List Char :=
  if n < 0 then '-' :: List.replicate (1 - (natToHex n.natAbs).length) '0' ++ natToHex n.natAbs
  else List.replicate (2 - (natToHex n.toNat).length) '0' ++ natToHex n.toNat

example : pyIntHex ['f', 'f'] = some 255 := by decide
example : pyIntHex ['F', 'F'] = some 255 := by decide
example : pyIntHex [] = none := by decide
example : pyIntHex ['z', 'z'] = none := by decide
example : pyIntDec ['2', '5', '5'] = some 255 := by decide
example : pyIntDec ['-', '3'] = some (-3) := by decide
example : format02x 255 = ['f', 'f'] := by decide
example : format02x 10 = ['0', 'a'] := by decide
example : format02x 999 = ['3', 'e', '7'] := by decide
example : format02x (-1) = ['-', '1'] := by decide

/-- An RGB key: the triple of `Int` components. -/
abbrev RGB := Int × Int × Int

/-- The range check `0 <= x <= 999` applied to all three components, shared
verbatim by `ColorDatabase.find_color` and `ColorLookup.get_color_name`. -/
def inRange (r g b : Int) : Prop :=
  0 ≤ r ∧ r ≤ 999 ∧ 0 ≤ g ∧ g ≤ 999 ∧ 0 ≤ b ∧ b ≤ 999

instance (r g b : Int) : Decidable (inRange r g b) :=
  inferInstanceAs (Decidable (0 ≤ r ∧ r ≤ 999 ∧ 0 ≤ g ∧ g ≤ 999 ∧ 0 ≤ b ∧ b ≤ 999))

/-- Embedding of the sqlite table `colors(r, g, b, name)` behind
`ColorDatabase`: the records in rowid (insertion) order. -/
structure ColorDatabase where
  recs : List (RGB × String)
deriving DecidableEq

/-- Source `ColorDatabase.add_color`: `INSERT OR REPLACE` — sqlite deletes
any row conflicting on the primary key `(r, g, b)` and inserts the new row
with a fresh rowid (hence at the end of the scan order). -/
def ColorDatabase.add_color (db : ColorDatabase) (r g b : Int) (name : String) :
    ColorDatabase :=
  ⟨db.recs.filter (fun e => !(e.1 == (r, g, b))) ++ [((r, g, b), name)]⟩

/-- Source `ColorDatabase.find_color`: range-check each component into
[0, 999] (returning `None` before touching storage otherwise), then
`SELECT name ... WHERE r=? AND g=? AND b=? LIMIT 1` — the first matching
record in scan order. -/
def ColorDatabase.find_color (db : ColorDatabase) (r g b : Int) : Option String :=
  if inRange r g b then (db.recs.find? (fun e => e.1 == (r, g, b))).map Prod.snd
  else none

/-- Python `"a,b,c".split(',')` on a character list: split at every comma,
keeping empty fragments (`"".split(',') == ['']`). -/
def splitComma : List Char → List (List Char)
  | [] => [[]]
  | c :: rest =>
    if c = ',' then [] :: splitComma rest
    else
      match splitComma rest with
      | [] => [[c]]
      | h :: t => (c :: h) :: t

/-- Source line `r, g, b = map(int, rgb_str.split(','))`: succeeds exactly
when the key splits into three comma-separated components each parseable by
Python `int` (wrong arity or an unparseable component raises
`ValueError`). -/
def parse_rgb_key (s : String) : Option RGB :=
  match splitComma s.toList with
  | [a, b, c] =>
    match pyIntDec a, pyIntDec b, pyIntDec c with
    | some x, some y, some z => some (x, y, z)
    | _, _, _ => none
  | _ => none

/-- Source `ColorDatabase.bulk_import_from_json`, after the JSON file has
been read into its entry list (file I/O is outside the model): apply the
`INSERT OR REPLACE` statements in order inside one transaction; the first
unparseable key raises `ValueError`, the `with` block rolls the transaction
back, and the table is left in its prior state — modelled by `none`. -/
def ColorDatabase.bulk_import_from_json (db : ColorDatabase) :
    List (String × String) → Option ColorDatabase
  | [] => some db
  | e :: rest =>
    match parse_rgb_key e.1 with
    | some (x, y, z) => ColorDatabase.bulk_import_from_json (db.add_color x y z e.2) rest
    | none => none

/-- Embedding of a `ColorLookup` instance: the backing database, the
`lru_cache(maxsize=2048)` attached to `get_color_name` (most recently used
entry first), and an instrumentation counter of `sqlite3.connect` calls. -/
structure ColorLookup where
  db : ColorDatabase
  cache : List (RGB × String)
  accesses : Nat
deriving DecidableEq

/-- The cache capacity, `lru_cache(maxsize=2048)`. -/
def cacheCapacity : Nat := 2048

/-- Source `ColorLookup.get_color_name`, state-passing.  The `lru_cache`
wrapper is consulted first (a hit moves the entry to most-recent position
and performs no storage access); on a miss the body runs: the range check
(an out-of-range triple yields `"Invalid RGB value"` with no storage
access), otherwise `find_color` (one `sqlite3.connect`) and the Python
truthiness collapse `name if name else "Unknown"` mapping both `None` and
the empty string to `"Unknown"`.  The computed value — the invalid-input
sentinel included — is then cached, evicting the least recently used entry
when the cache is full. -/
def ColorLookup.get_color_name (st : ColorLookup) (r g b : Int) :
    String × ColorLookup :=
  match st.cache.find? (fun e => e.1 == (r, g, b)) with
  | some e =>
    (e.2, { st with cache := ((r, g, b), e.2) :: st.cache.eraseP (fun e => e.1 == (r, g, b)) })
  | none =>
    let va : String × Nat :=
      if inRange r g b then
        match st.db.find_color r g b with
        | some n => (if n = "" then "Unknown" else n, st.accesses + 1)
        | none => ("Unknown", st.accesses + 1)
      else ("Invalid RGB value", st.accesses)
    let c := ((r, g, b), va.1) :: st.cache
    (va.1, { st with cache := if cacheCapacity < c.length then c.dropLast else c,
                     accesses := va.2 })

/-- Source `ColorLookup.add_color`: write through to the store (one
`sqlite3.connect`), then `cache_clear()`.  No validation of any kind is
performed. -/
def ColorLookup.add_color (st : ColorLookup) (r g b : Int) (name : String) :
    ColorLookup :=
  { db := st.db.add_color r g b name, cache := [], accesses := st.accesses + 1 }

/-- Source `ColorLookup.import_from_json`: delegate to the store's bulk
import, then `cache_clear()`.  The boolean records success; on `false` the
`ValueError` propagates out of `bulk_import_from_json` before the
`cache_clear()` line runs, so the rolled-back store and the untouched cache
are returned unchanged. -/
def ColorLookup.import_from_json (st : ColorLookup) (colors : List (String × String)) :
    Bool × ColorLookup :=
  match st.db.bulk_import_from_json colors with
  | some db2 => (true, { db := db2, cache := [], accesses := st.accesses + 1 })
  | none => (false, { st with accesses := st.accesses + 1 })

/-- The computed `diff` column of `find_similar_color`'s query:
`ABS(r-?) + ABS(g-?) + ABS(b-?)` for a row against the query center. -/
def rowDiff (e : RGB × String) (r g b : Int) : Int :=
  |e.1.1 - r| + |e.1.2.1 - g| + |e.1.2.2 - b|

/-- The `ORDER BY diff` comparison on result rows. -/
def diffLE (a b : RGB × String × Int) : Prop := a.2.2 ≤ b.2.2

instance : DecidableRel diffLE := fun a b => Int.decLe a.2.2 b.2.2

instance : IsTotal (RGB × String × Int) diffLE := ⟨fun a b => Int.le_total a.2.2 b.2.2⟩

instance : IsTrans (RGB × String × Int) diffLE := ⟨fun _ _ _ => Int.le_trans⟩

/-- Source `ColorLookup.find_similar_color`: the SQL query computes
`diff = ABS(r-?)+ABS(g-?)+ABS(b-?)` per row, keeps rows with
`diff <= threshold`, and sorts ascending by `diff` (ties left in scan
order — a stable sort of the table scan).  No input validation, no caching. -/
def ColorLookup.find_similar_color (db : ColorDatabase) (r g b : Int)
    (threshold : Int) : List (RGB × String × Int) :=
  List.insertionSort diffLE
    ((db.recs.map (fun e => (e.1, e.2, rowDiff e r g b))).filter
      (fun row => row.2.2 ≤ threshold))

/-- Source `ColorLookup.hex_to_rgb`: `lstrip('#')` removes every leading
`'#'`; a remainder of length 3 is expanded by duplicating each character;
then the three slices `[0:2]`, `[2:4]`, `[4:6]` are fed to `int(_, 16)`.
Characters past index 6 are never looked at; `none` models the propagated
`ValueError` when a slice fails to parse. -/
def ColorLookup.hex_to_rgb (s : String) : Option RGB :=
  let t0 := s.toList.dropWhile (fun c => c == '#')
  let t := if t0.length = 3 then (t0.map (fun c => [c, c])).flatten else t0
  match pyIntHex (slice2 t 0), pyIntHex (slice2 t 2), pyIntHex (slice2 t 4) with
  | some x, some y, some z => some (x, y, z)
  | _, _, _ => none

/-- Source `ColorLookup.rgb_to_hex`: `f"#{r:02x}{g:02x}{b:02x}"`. -/
def ColorLookup.rgb_to_hex (r g b : Int) : String :=
  String.mk ('#' :: (format02x r ++ format02x g ++ format02x b))

example : ColorLookup.hex_to_rgb "f0a" = some (255, 0, 170) := by decide
example : ColorLookup.hex_to_rgb "ff00aa" = some (255, 0, 170) := by decide
example : ColorLookup.hex_to_rgb "#FFFFFF" = some (255, 255, 255) := by decide
example : ColorLookup.hex_to_rgb "12" = none := by decide
example : ColorLookup.hex_to_rgb "zzzzzz" = none := by decide
example : ColorLookup.hex_to_rgb "1234567" = some (18, 52, 86) := by decide
example : ColorLookup.rgb_to_hex 255 0 170 = "#ff00aa" := by decide
example : parse_rgb_key "255,0,0" = some (255, 0, 0) := by decide
example : parse_rgb_key "255,0" = none := by decide
example : parse_rgb_key "a,0,0" = none := by decide

/-! ### Association-list facts about the store -/

/-- After `INSERT OR REPLACE` at key `k`, the first (and only) record found
at `k` is the freshly inserted one. -/
theorem find?_addKey (l : List (RGB × String)) (k : RGB) (n : String) :
    ((l.filter (fun e => !(e.1 == k))) ++ [(k, n)]).find? (fun e => e.1 == k) =
      some (k, n) := by
  rw [List.find?_append]
  have h1 : (l.filter (fun e => !(e.1 == k))).find? (fun e => e.1 == k) = none := by
    rw [List.find?_eq_none]
    intro x hx
    have hk := (List.mem_filter.mp hx).2
    simp only [Bool.not_eq_eq_eq_not, Bool.not_true] at hk
    simp [hk]
  rw [h1]
  simp [List.find?_cons]

/-- After `INSERT OR REPLACE` at key `k`, the records at key `k` are exactly
the fresh one — regardless of how many records at `k` the table held. -/
theorem filter_addKey (l : List (RGB × String)) (k : RGB) (n : String) :
    ((l.filter (fun e => !(e.1 == k))) ++ [(k, n)]).filter (fun e => e.1 == k) =
      [(k, n)] := by
  rw [List.filter_append, List.filter_filter]
  simp

/-- `INSERT OR REPLACE` preserves uniqueness of the primary key. -/
theorem nodup_addKey (l : List (RGB × String)) (k : RGB) (n : String)
    (h : (l.map Prod.fst).Nodup) :
    (((l.filter (fun e => !(e.1 == k))) ++ [(k, n)]).map Prod.fst).Nodup := by
  rw [List.map_append, List.nodup_append]
  refine ⟨((List.filter_sublist l).map Prod.fst).nodup h, by simp, ?_⟩
  intro a ha hb
  simp only [List.map_cons, List.map_nil, List.mem_singleton] at hb
  subst hb
  obtain ⟨e, he, rfl⟩ := List.mem_map.mp ha
  have := (List.mem_filter.mp he).2
  simp at this

/-- In a table with unique keys, two records at the same key carry the same
name. -/
theorem nodup_val_eq {l : List (RGB × String)} (h : (l.map Prod.fst).Nodup)
    {k : RGB} {n m : String} (h1 : (k, n) ∈ l) (h2 : (k, m) ∈ l) : n = m := by
  induction l with
  | nil => cases h1
  | cons e t ih =>
    simp only [List.map_cons, List.nodup_cons] at h
    rcases List.mem_cons.mp h1 with he1 | h1t
    · rcases List.mem_cons.mp h2 with he2 | h2t
      · rw [← he1] at he2; exact (congrArg Prod.snd he2).symm
      · exact absurd (List.mem_map.mpr ⟨(k, m), h2t, by rw [← he1]⟩) h.1
    · rcases List.mem_cons.mp h2 with he2 | h2t
      · exact absurd (List.mem_map.mpr ⟨(k, n), h1t, by rw [← he2]⟩) h.1
      · exact ih h.2 h1t h2t

/-! ### The resolver's coherence invariant -/

/-- The in-range arm of `get_color_name`'s body: `find_color`, with Python
truthiness collapsing `None` and `""` to `"Unknown"`. -/
def lookupOrUnknown (db : ColorDatabase) (r g b : Int) : String :=
  match db.find_color r g b with
  | some n => if n = "" then "Unknown" else n
  | none => "Unknown"

/-- The value `get_color_name` computes (and caches) for a key on a miss,
as a pure function of the backing database. -/
def specName (db : ColorDatabase) (r g b : Int) : String :=
  if inRange r g b then lookupOrUnknown db r g b else "Invalid RGB value"

/-- Every cache entry agrees with what a fresh miss against the current
database would compute.  Holds in every reachable resolver state, because
mutations clear the cache. -/
def Coherent (st : ColorLookup) : Prop :=
  ∀ e ∈ st.cache, e.2 = specName st.db e.1.1 e.1.2.1 e.1.2.2

instance (st : ColorLookup) : Decidable (Coherent st) :=
  List.decidableBAll _ st.cache

/-- A trace of `get_color_name` calls (read-only operations), folded over the
resolver state. -/
def resolveMany (st : ColorLookup) (ks : List RGB) : ColorLookup :=
  ks.foldl (fun s k => (s.get_color_name k.1 k.2.1 k.2.2).2) st

/-- Pushing the freshly computed value into the LRU cache keeps every entry
coherent. -/
theorem coherent_push (db : ColorDatabase) (cache : List (RGB × String))
    (k : RGB) (v : String)
    (hc : ∀ e ∈ cache, e.2 = specName db e.1.1 e.1.2.1 e.1.2.2)
    (hv : v = specName db k.1 k.2.1 k.2.2) :
    ∀ e ∈ (if cacheCapacity < ((k, v) :: cache).length
           then ((k, v) :: cache).dropLast else (k, v) :: cache),
      e.2 = specName db e.1.1 e.1.2.1 e.1.2.2 := by
  intro e he
  have he2 : e ∈ (k, v) :: cache := by
    by_cases h : cacheCapacity < ((k, v) :: cache).length
    · rw [if_pos h] at he; exact (List.dropLast_sublist _).subset he
    · rwa [if_neg h] at he
  rcases List.mem_cons.mp he2 with rfl | h3
  · simpa using hv
  · exact hc e h3

/-- Core step lemma: in a coherent state, `get_color_name` returns exactly
the miss value `specName` of the current database (cache hits can never
disagree), leaves the database untouched, and preserves coherence. -/
theorem get_color_name_spec (st : ColorLookup) (r g b : Int) (hc : Coherent st) :
    (st.get_color_name r g b).1 = specName st.db r g b ∧
    (st.get_color_name r g b).2.db = st.db ∧
    Coherent (st.get_color_name r g b).2 := by
  cases hfind : st.cache.find? (fun e => e.1 == (r, g, b)) with
  | some e =>
    have hke : e.1 = (r, g, b) := by simpa using List.find?_some hfind
    have hme : e ∈ st.cache := List.mem_of_find?_eq_some hfind
    have hval : e.2 = specName st.db r g b := by
      have h0 := hc e hme
      rw [hke] at h0
      simpa using h0
    simp only [ColorLookup.get_color_name, hfind]
    refine ⟨hval, trivial, ?_⟩
    intro x hx
    rcases List.mem_cons.mp hx with rfl | hx2
    · simpa using hval
    · exact hc x ((List.eraseP_sublist st.cache).subset hx2)
  | none =>
    simp only [ColorLookup.get_color_name, hfind]
    by_cases h : inRange r g b
    · cases hfc : st.db.find_color r g b with
      | some n =>
        simp only [if_pos h, hfc]
        refine ⟨by simp [specName, lookupOrUnknown, h, hfc], trivial, ?_⟩
        exact coherent_push st.db st.cache (r, g, b) _ hc
          (by simp [specName, lookupOrUnknown, h, hfc])
      | none =>
        simp only [if_pos h, hfc]
        refine ⟨by simp [specName, lookupOrUnknown, h, hfc], trivial, ?_⟩
        exact coherent_push st.db st.cache (r, g, b) _ hc
          (by simp [specName, lookupOrUnknown, h, hfc])
    · simp only [if_neg h]
      refine ⟨by simp [specName, h], trivial, ?_⟩
      exact coherent_push st.db st.cache (r, g, b) _ hc (by simp [specName, h])

/-- A read-only trace neither touches the database nor breaks coherence. -/
theorem resolveMany_db_coherent (ks : List RGB) (st : ColorLookup)
    (hc : Coherent st) :
    (resolveMany st ks).db = st.db ∧ Coherent (resolveMany st ks) := by
  induction ks generalizing st with
  | nil => exact ⟨rfl, hc⟩
  | cons k t ih =>
    have h := get_color_name_spec st k.1 k.2.1 k.2.2 hc
    have h2 := ih ((st.get_color_name k.1 k.2.1 k.2.2).2) h.2.2
    exact ⟨h2.1.trans h.2.1, h2.2⟩

/-! ### Claim C1 — cache coherence of resolve after add_color -/

/-- C1: for every component triple in [0, 999] and non-empty name, after
`add_color(r, g, b, name)` every later `get_color_name(r, g, b)` — the first
call and all subsequent ones, through an arbitrary trace of further resolve
calls — returns exactly `name`.  The add clears the whole cache, so no stale
entry for the key can survive. -/
theorem claim_C1 (st : ColorLookup) (r g b : Int) (name : String)
    (h : inRange r g b) (hn : name ≠ "") (ks : List RGB) :
    ((resolveMany (st.add_color r g b name) ks).get_color_name r g b).1 = name := by
  have hc1 : Coherent (st.add_color r g b name) := by
    intro e he
    simp [ColorLookup.add_color] at he
  obtain ⟨hdb, hc2⟩ := resolveMany_db_coherent ks _ hc1
  have hs := get_color_name_spec _ r g b hc2
  rw [hs.1, hdb]
  show specName (st.db.add_color r g b name) r g b = name
  unfold specName lookupOrUnknown ColorDatabase.find_color ColorDatabase.add_color
  rw [if_pos h, if_pos h, find?_addKey]
  simp [hn]

/-- Witness for C1 at a concrete state, key, name and trace. -/
theorem claim_C1_witness :
    inRange 255 0 0 ∧ "Bright Red" ≠ "" ∧
    ((resolveMany ((ColorLookup.mk ⟨[]⟩ [] 0).add_color 255 0 0 "Bright Red")
        [(255, 0, 0), (1, 2, 3)]).get_color_name 255 0 0).1 = "Bright Red" :=
  ⟨by decide, by decide,
    claim_C1 (ColorLookup.mk ⟨[]⟩ [] 0) 255 0 0 "Bright Red" (by decide) (by decide)
      [(255, 0, 0), (1, 2, 3)]⟩

/-! ### Claim C3 — invalid-range resolve -/

/-- C3 counterexample: the claim asserts that an invalid-range resolve
leaves the resolver state unchanged, but `lru_cache` wraps the whole
function body, so the `"Invalid RGB value"` result is itself cached: on a
fresh resolver, `get_color_name 1000 0 0` changes the state. -/
theorem claim_C3_counterexample :
    ((ColorLookup.mk ⟨[]⟩ [] 0).get_color_name 1000 0 0).2.cache =
      [((1000, 0, 0), "Invalid RGB value")] ∧
    ((ColorLookup.mk ⟨[]⟩ [] 0).get_color_name 1000 0 0).2 ≠
      ColorLookup.mk ⟨[]⟩ [] 0 := by decide

/-- Accesses are untouched by an invalid-range resolve (hit or miss). -/
theorem get_color_name_accesses_invalid (st : ColorLookup) (r g b : Int)
    (h : ¬ inRange r g b) :
    (st.get_color_name r g b).2.accesses = st.accesses := by
  cases hfind : st.cache.find? (fun e => e.1 == (r, g, b)) with
  | some e => simp [ColorLookup.get_color_name, hfind]
  | none => simp [ColorLookup.get_color_name, hfind, if_neg h]

/-- The freshly pushed LRU head survives the eviction of the oldest entry. -/
theorem mem_push (k : RGB) (v : String) (cache : List (RGB × String)) :
    (k, v) ∈ (if cacheCapacity < ((k, v) :: cache).length
              then ((k, v) :: cache).dropLast else (k, v) :: cache) := by
  by_cases h : cacheCapacity < ((k, v) :: cache).length
  · rw [if_pos h]
    cases cache with
    | nil => simp [cacheCapacity] at h
    | cons c cs => simp [List.dropLast]
  · rw [if_neg h]
    exact List.mem_cons_self _ _

/-- The key just resolved is cached, bound to the value just returned. -/
theorem get_color_name_caches (st : ColorLookup) (r g b : Int) :
    ((r, g, b), (st.get_color_name r g b).1) ∈ (st.get_color_name r g b).2.cache := by
  cases hfind : st.cache.find? (fun e => e.1 == (r, g, b)) with
  | some e =>
    simp [ColorLookup.get_color_name, hfind]
  | none =>
    simp only [ColorLookup.get_color_name, hfind]
    exact mem_push _ _ _

/-- C3 amended: for a component outside [0, 999], `get_color_name` returns
`"Invalid RGB value"` with no storage access and no change to the store —
but the sentinel is cached like any other result, so the resolver's cache
state does change (the original claim's "without changing any state" fails);
`(0,0,0)` and `(999,999,999)` are in range and are resolved against the
store, not rejected. -/
theorem claim_C3_amended (st : ColorLookup) (r g b : Int) (hc : Coherent st)
    (h : ¬ inRange r g b) :
    (st.get_color_name r g b).1 = "Invalid RGB value" ∧
    (st.get_color_name r g b).2.db = st.db ∧
    (st.get_color_name r g b).2.accesses = st.accesses ∧
    ((r, g, b), "Invalid RGB value") ∈ (st.get_color_name r g b).2.cache ∧
    (st.get_color_name 0 0 0).1 = lookupOrUnknown st.db 0 0 0 ∧
    (st.get_color_name 999 999 999).1 = lookupOrUnknown st.db 999 999 999 := by
  have hs := get_color_name_spec st r g b hc
  have hval : (st.get_color_name r g b).1 = "Invalid RGB value" := by
    rw [hs.1]; simp [specName, h]
  refine ⟨hval, hs.2.1, get_color_name_accesses_invalid st r g b h, ?_, ?_, ?_⟩
  · have := get_color_name_caches st r g b
    rwa [hval] at this
  · rw [(get_color_name_spec st 0 0 0 hc).1]
    simp [specName, show inRange 0 0 0 by decide]
  · rw [(get_color_name_spec st 999 999 999 hc).1]
    simp [specName, show inRange 999 999 999 by decide]

/-- Witness for the amended C3 on a fresh resolver and the key (1000,0,0). -/
theorem claim_C3_amended_witness :
    Coherent (ColorLookup.mk ⟨[]⟩ [] 0) ∧ ¬ inRange 1000 0 0 ∧
    (((ColorLookup.mk ⟨[]⟩ [] 0).get_color_name 1000 0 0).1 = "Invalid RGB value" ∧
     ((ColorLookup.mk ⟨[]⟩ [] 0).get_color_name 1000 0 0).2.db = (ColorLookup.mk ⟨[]⟩ [] 0).db ∧
     ((ColorLookup.mk ⟨[]⟩ [] 0).get_color_name 1000 0 0).2.accesses = 0 ∧
     ((1000, 0, 0), "Invalid RGB value") ∈ ((ColorLookup.mk ⟨[]⟩ [] 0).get_color_name 1000 0 0).2.cache ∧
     ((ColorLookup.mk ⟨[]⟩ [] 0).get_color_name 0 0 0).1 =
       lookupOrUnknown (ColorLookup.mk ⟨[]⟩ [] 0).db 0 0 0 ∧
     ((ColorLookup.mk ⟨[]⟩ [] 0).get_color_name 999 999 999).1 =
       lookupOrUnknown (ColorLookup.mk ⟨[]⟩ [] 0).db 999 999 999) :=
  ⟨by decide, by decide,
    claim_C3_amended (ColorLookup.mk ⟨[]⟩ [] 0) 1000 0 0 (by decide) (by decide)⟩

/-! ### Claim C6 — hex_to_rgb acceptance -/

/-- C6 counterexample: the claim requires every input that is not exactly 3
or 6 hex digits (after the optional `#`) to fail, in particular a 7-digit
string; but `hex_to_rgb` only slices characters 0–5, so `"1234567"` parses
to (0x12, 0x34, 0x56) with the seventh digit ignored. -/
theorem claim_C6_counterexample :
    ColorLookup.hex_to_rgb "1234567" = some (18, 52, 86) ∧
    ColorLookup.hex_to_rgb "1234567" ≠ none := by decide

/-- C6 amended: `hex_to_rgb` strips every leading `'#'`, duplicates each
character when the remainder has length 3, then parses the slices
`[0:2]`, `[2:4]`, `[4:6]` as hexadecimal, ignoring everything past the
sixth character.  The 3- and 6-digit behaviours of the claim hold
(`"f0a"`, `"ff00aa"`, `"#FFFFFF"`, and `"12"` / `"zzzzzz"` fail), but
inputs with more than 6 hex digits succeed — `"1234567"` gives
(18, 52, 86) — as does a 5-digit input via a truncated third slice, and a
repeated `'#'` prefix is also accepted. -/
theorem claim_C6_amended :
    ColorLookup.hex_to_rgb "f0a" = some (255, 0, 170) ∧
    ColorLookup.hex_to_rgb "ff00aa" = some (255, 0, 170) ∧
    ColorLookup.hex_to_rgb "#f0a" = some (255, 0, 170) ∧
    ColorLookup.hex_to_rgb "#FFFFFF" = some (255, 255, 255) ∧
    ColorLookup.hex_to_rgb "12" = none ∧
    ColorLookup.hex_to_rgb "zzzzzz" = none ∧
    ColorLookup.hex_to_rgb "" = none ∧
    ColorLookup.hex_to_rgb "1234567" = some (18, 52, 86) ∧
    ColorLookup.hex_to_rgb "abcde" = some (171, 205, 14) ∧
    ColorLookup.hex_to_rgb "##ffffff" = some (255, 255, 255) := by decide

/-! ### Claim C7 — upsert idempotence -/

/-- C7: two `ColorDatabase.add_color` calls at the same key leave exactly
one record at that key, carrying the second name; and `add_color` (hence
any sequence of them) preserves uniqueness of the `(r, g, b)` primary
key. -/
theorem claim_C7 (db : ColorDatabase) (r g b : Int) (n1 n2 : String) :
    (((db.add_color r g b n1).add_color r g b n2).recs.filter
        (fun e => e.1 == (r, g, b))) = [((r, g, b), n2)] ∧
    ((db.recs.map Prod.fst).Nodup →
      (((db.add_color r g b n1).add_color r g b n2).recs.map Prod.fst).Nodup) := by
  constructor
  · exact filter_addKey _ _ _
  · intro h
    exact nodup_addKey _ _ _ (nodup_addKey _ _ _ h)

/-- Witness for C7 on a concrete one-record table. -/
theorem claim_C7_witness :
    ((((ColorDatabase.mk [((7, 7, 7), "Grey")]).add_color 1 2 3 "First").add_color
        1 2 3 "Second").recs.filter (fun e => e.1 == ((1 : Int), (2 : Int), (3 : Int)))) =
      [(((1 : Int), (2 : Int), (3 : Int)), "Second")] ∧
    ((((ColorDatabase.mk [((7, 7, 7), "Grey")]).add_color 1 2 3 "First").add_color
        1 2 3 "Second").recs.map Prod.fst).Nodup :=
  ⟨(claim_C7 (ColorDatabase.mk [((7, 7, 7), "Grey")]) 1 2 3 "First" "Second").1,
   (claim_C7 (ColorDatabase.mk [((7, 7, 7), "Grey")]) 1 2 3 "First" "Second").2
     (by decide)⟩

/-! ### Claim C8 — the store's exact lookup and range checking -/

/-- C8 counterexample: the claim says `find_color` does not range-check and
returns the stored name whenever a record with the key exists; but on a
table holding a record at (1000, 0, 0), `find_color 1000 0 0` returns
`None` — the store repeats the [0, 999] range check itself. -/
theorem claim_C8_counterexample :
    ((1000, 0, 0), "X") ∈ (ColorDatabase.mk [((1000, 0, 0), "X")]).recs ∧
    (ColorDatabase.mk [((1000, 0, 0), "X")]).find_color 1000 0 0 = none := by decide

/-- C8 amended: `find_color` range-checks its input itself: any key with a
component outside [0, 999] gets `None` regardless of the table's contents
(and without a storage connection); for in-range keys, under the
primary-key uniqueness invariant, it returns the stored name exactly when a
record with that key exists. -/
theorem claim_C8_amended (db : ColorDatabase) (r g b : Int) :
    (¬ inRange r g b → db.find_color r g b = none) ∧
    (inRange r g b → (db.recs.map Prod.fst).Nodup →
      ∀ n, (((r, g, b), n) ∈ db.recs ↔ db.find_color r g b = some n)) := by
  constructor
  · intro h
    simp [ColorDatabase.find_color, h]
  · intro h hnd n
    unfold ColorDatabase.find_color
    rw [if_pos h]
    constructor
    · intro hm
      have hs : (db.recs.find? (fun e => e.1 == (r, g, b))).isSome :=
        List.find?_isSome.mpr ⟨((r, g, b), n), hm, by simp⟩
      obtain ⟨e, he⟩ := Option.isSome_iff_exists.mp hs
      have hke : e.1 = (r, g, b) := by simpa using List.find?_some he
      have hme : e ∈ db.recs := List.mem_of_find?_eq_some he
      have hmem2 : ((r, g, b), e.2) ∈ db.recs := by rwa [← hke, Prod.mk.eta]
      have : e.2 = n := nodup_val_eq hnd hmem2 hm
      rw [he, Option.map_some']
      rw [this]
    · intro hf
      obtain ⟨e, he, hsnd⟩ := Option.map_eq_some'.mp hf
      have hke : e.1 = (r, g, b) := by simpa using List.find?_some he
      have hme : e ∈ db.recs := List.mem_of_find?_eq_some he
      have : e = ((r, g, b), n) := Prod.ext hke hsnd
      rwa [this] at hme

/-- Witness for the amended C8: an out-of-range key over a non-empty table,
and an in-range key both present and absent. -/
theorem claim_C8_amended_witness :
    (ColorDatabase.mk [((1, 2, 3), "Red")]).find_color 1000 0 0 = none ∧
    (((1, 2, 3), "Red") ∈ (ColorDatabase.mk [((1, 2, 3), "Red")]).recs ↔
      (ColorDatabase.mk [((1, 2, 3), "Red")]).find_color 1 2 3 = some "Red") :=
  ⟨(claim_C8_amended (ColorDatabase.mk [((1, 2, 3), "Red")]) 1000 0 0).1 (by decide),
   (claim_C8_amended (ColorDatabase.mk [((1, 2, 3), "Red")]) 1 2 3).2 (by decide)
     (by decide) "Red"⟩

/-! ### Claim C9 — add_color input validation -/

/-- C9 counterexample: the claim says a call with a negative component is
rejected and not written through; but the resolver's `add_color` performs no
validation at all, and on a fresh resolver `add_color (-5) 0 0 "X"` writes
the record straight into the store. -/
theorem claim_C9_counterexample :
    ((ColorLookup.mk ⟨[]⟩ [] 0).add_color (-5) 0 0 "X").db.recs =
      [(((-5 : Int), (0 : Int), (0 : Int)), "X")] := by decide

/-- C9 amended: `ColorLookup.add_color` validates nothing: every call —
negative components and the empty name included — writes the record through
to the store (leaving it the unique record at its key) and clears the
cache. -/
theorem claim_C9_amended (st : ColorLookup) (r g b : Int) (n : String) :
    ((st.add_color r g b n).db.recs.filter (fun e => e.1 == (r, g, b))) =
      [((r, g, b), n)] ∧
    ((r, g, b), n) ∈ (st.add_color r g b n).db.recs ∧
    (st.add_color r g b n).cache = [] := by
  refine ⟨filter_addKey _ _ _, ?_, rfl⟩
  simp [ColorLookup.add_color, ColorDatabase.add_color]

/-! ### Claim C4 — bulk import atomicity -/

/-- A batch containing an unparseable key aborts the whole import (the
transaction rolls back). -/
theorem bulk_import_none (db : ColorDatabase) (colors : List (String × String))
    (h : ∃ e ∈ colors, parse_rgb_key e.1 = none) :
    db.bulk_import_from_json colors = none := by
  induction colors generalizing db with
  | nil => obtain ⟨e, he, _⟩ := h; cases he
  | cons c t ih =>
    obtain ⟨e, he, hp⟩ := h
    rcases List.mem_cons.mp he with rfl | ht
    · simp [ColorDatabase.bulk_import_from_json, hp]
    · cases hc : parse_rgb_key c.1 with
      | none => simp [ColorDatabase.bulk_import_from_json, hc]
      | some v =>
        obtain ⟨x, y, z⟩ := v
        simp only [ColorDatabase.bulk_import_from_json, hc]
        exact ih _ ⟨e, ht, hp⟩

/-- A batch whose keys all parse commits. -/
theorem bulk_import_some (colors : List (String × String)) (db : ColorDatabase)
    (h : ∀ e ∈ colors, parse_rgb_key e.1 ≠ none) :
    ∃ db2, db.bulk_import_from_json colors = some db2 := by
  induction colors generalizing db with
  | nil => exact ⟨db, rfl⟩
  | cons c t ih =>
    cases hc : parse_rgb_key c.1 with
    | none => exact absurd hc (h c (List.mem_cons_self c t))
    | some v =>
      obtain ⟨x, y, z⟩ := v
      simp only [ColorDatabase.bulk_import_from_json, hc]
      exact ih _ (fun e he => h e (List.mem_cons_of_mem c he))

/-- C4: if any entry's key fails to parse as three comma-separated integers,
the whole import fails, the store is left in its prior state and the cache
untouched; the import succeeds exactly when every key parses, and only then
is the entire cache invalidated. -/
theorem claim_C4 (st : ColorLookup) (colors : List (String × String)) :
    ((∃ e ∈ colors, parse_rgb_key e.1 = none) →
      (st.import_from_json colors).1 = false ∧
      (st.import_from_json colors).2.db = st.db ∧
      (st.import_from_json colors).2.cache = st.cache) ∧
    ((∀ e ∈ colors, parse_rgb_key e.1 ≠ none) →
      (st.import_from_json colors).1 = true) ∧
    ((st.import_from_json colors).1 = true →
      (st.import_from_json colors).2.cache = []) := by
  refine ⟨?_, ?_, ?_⟩
  · intro h
    have hb := bulk_import_none st.db colors h
    simp [ColorLookup.import_from_json, hb]
  · intro h
    obtain ⟨db2, hb⟩ := bulk_import_some colors st.db h
    simp [ColorLookup.import_from_json, hb]
  · intro h
    cases hb : st.db.bulk_import_from_json colors with
    | some db2 => simp [ColorLookup.import_from_json, hb]
    | none => simp [ColorLookup.import_from_json, hb] at h

/-- Witness for C4: a malformed batch over a resolver with a warm cache
(nothing changes), and a well-formed batch (success, cache cleared). -/
theorem claim_C4_witness :
    ((ColorLookup.mk ⟨[]⟩ [((5, 5, 5), "c")] 3).import_from_json
        [("255,0,0", "Red"), ("x,0,0", "Bad")]).1 = false ∧
    ((ColorLookup.mk ⟨[]⟩ [((5, 5, 5), "c")] 3).import_from_json
        [("255,0,0", "Red"), ("x,0,0", "Bad")]).2.db = ColorDatabase.mk [] ∧
    ((ColorLookup.mk ⟨[]⟩ [((5, 5, 5), "c")] 3).import_from_json
        [("255,0,0", "Red"), ("x,0,0", "Bad")]).2.cache = [((5, 5, 5), "c")] ∧
    ((ColorLookup.mk ⟨[]⟩ [((5, 5, 5), "c")] 3).import_from_json
        [("255,0,0", "Red")]).2.cache = [] := by
  have h1 := (claim_C4 (ColorLookup.mk ⟨[]⟩ [((5, 5, 5), "c")] 3)
    [("255,0,0", "Red"), ("x,0,0", "Bad")]).1 ⟨("x,0,0", "Bad"), by decide, by decide⟩
  have h2 := (claim_C4 (ColorLookup.mk ⟨[]⟩ [((5, 5, 5), "c")] 3)
    [("255,0,0", "Red")]).2.2 (by decide)
  exact ⟨h1.1, h1.2.1, h1.2.2, h2⟩

/-! ### Claim C5 — similarity scan -/

/-- C5: `find_similar_color` returns exactly the stored records whose
Manhattan distance to the center is at most the threshold (as a permutation
of the filtered table scan), each paired with precisely that distance; the
sequence is non-decreasing in distance; and with threshold 0 every returned
row sits exactly at the query center. -/
theorem claim_C5 (db : ColorDatabase) (r g b t : Int) :
    (ColorLookup.find_similar_color db r g b t).Perm
      ((db.recs.map (fun e => (e.1, e.2, rowDiff e r g b))).filter
        (fun row => row.2.2 ≤ t)) ∧
    (ColorLookup.find_similar_color db r g b t).Pairwise diffLE ∧
    (∀ row ∈ ColorLookup.find_similar_color db r g b t,
      row.2.2 = |row.1.1 - r| + |row.1.2.1 - g| + |row.1.2.2 - b| ∧
      row.2.2 ≤ t ∧ (row.1, row.2.1) ∈ db.recs) ∧
    (∀ row ∈ ColorLookup.find_similar_color db r g b 0, row.1 = (r, g, b)) := by
  have hmem : ∀ t' : Int, ∀ row ∈ ColorLookup.find_similar_color db r g b t',
      (∃ e ∈ db.recs, row = (e.1, e.2, rowDiff e r g b)) ∧ row.2.2 ≤ t' := by
    intro t' row hrow
    have hrow2 := (List.perm_insertionSort diffLE _).subset hrow
    have := List.mem_filter.mp hrow2
    obtain ⟨e, he, heq⟩ := List.mem_map.mp this.1
    exact ⟨⟨e, he, heq.symm⟩, by simpa using this.2⟩
  refine ⟨List.perm_insertionSort diffLE _, List.sorted_insertionSort diffLE _, ?_, ?_⟩
  · intro row hrow
    obtain ⟨⟨e, he, rfl⟩, hle⟩ := hmem t row hrow
    exact ⟨rfl, hle, he⟩
  · intro row hrow
    obtain ⟨⟨e, he, rfl⟩, hle⟩ := hmem 0 row hrow
    have h1 := abs_nonneg (e.1.1 - r)
    have h2 := abs_nonneg (e.1.2.1 - g)
    have h3 := abs_nonneg (e.1.2.2 - b)
    simp only [rowDiff] at hle
    have e1 : |e.1.1 - r| = 0 := le_antisymm (by linarith) h1
    have e2 : |e.1.2.1 - g| = 0 := le_antisymm (by linarith) h2
    have e3 : |e.1.2.2 - b| = 0 := le_antisymm (by linarith) h3
    have hr : e.1.1 = r := by have := abs_eq_zero.mp e1; omega
    have hg : e.1.2.1 = g := by have := abs_eq_zero.mp e2; omega
    have hb : e.1.2.2 = b := by have := abs_eq_zero.mp e3; omega
    show e.1 = (r, g, b)
    rw [← hr, ← hg, ← hb]

/-- Witness for C5 on a concrete two-record table: a row at distance 5 under
threshold 10, and the threshold-0 exact-match conclusion. -/
theorem claim_C5_witness :
    ((5 : Int) = |(250 : Int) - 255| + |(0 : Int) - 0| + |(0 : Int) - 0| ∧
      (5 : Int) ≤ 10 ∧
      ((((250 : Int), (0 : Int), (0 : Int)), "Dark Red") ∈
        (ColorDatabase.mk [((255, 0, 0), "Bright Red"), ((250, 0, 0), "Dark Red")]).recs)) ∧
    (((255 : Int), (0 : Int), (0 : Int)), ("Bright Red", (0 : Int))).1 =
      ((255 : Int), (0 : Int), (0 : Int)) :=
  ⟨(claim_C5 (ColorDatabase.mk [((255, 0, 0), "Bright Red"), ((250, 0, 0), "Dark Red")])
      255 0 0 10).2.2.1
      (((250 : Int), (0 : Int), (0 : Int)), "Dark Red", (5 : Int)) (by decide),
   (claim_C5 (ColorDatabase.mk [((255, 0, 0), "Bright Red"), ((250, 0, 0), "Dark Red")])
      255 0 0 0).2.2.2
      (((255 : Int), (0 : Int), (0 : Int)), "Bright Red", (0 : Int)) (by decide)⟩

/-! ### Claim C2 — negative caching under the LRU bound -/

/-- Invariant tracking a negatively cached key `k` through read-only traffic
drawn from a key set `S`: the database is fixed, cache keys are unique, the
capacity bound holds, and `k ↦ "Unknown"` sits in the cache with every
more-recent entry keyed inside `S` and different from `k`. -/
def LruInv (db : ColorDatabase) (k : RGB) (S : Finset RGB) (st : ColorLookup) : Prop :=
  st.db = db ∧
  (st.cache.map Prod.fst).Nodup ∧
  st.cache.length ≤ cacheCapacity ∧
  ∃ pre post, st.cache = pre ++ ((k, "Unknown") : RGB × String) :: post ∧
    ∀ e ∈ pre, e.1 ∈ S ∧ e.1 ≠ k

/-- The tracked entry is the first match for its key in the cache. -/
theorem find?_tracked (k : RGB) (pre post : List (RGB × String))
    (hpre : ∀ e ∈ pre, e.1 ≠ k) :
    (pre ++ ((k, "Unknown") : RGB × String) :: post).find? (fun e => e.1 == k) =
      some (k, "Unknown") := by
  rw [List.find?_append]
  have h1 : pre.find? (fun e => e.1 == k) = none :=
    List.find?_eq_none.mpr (fun e he => by simp [hpre e he])
  rw [h1]
  simp [List.find?_cons]

/-- A hit on the tracked key returns the cached `"Unknown"` and performs no
storage access. -/
theorem lru_hit (db : ColorDatabase) (k : RGB) (S : Finset RGB) (st : ColorLookup)
    (hInv : LruInv db k S st) :
    (st.get_color_name k.1 k.2.1 k.2.2).1 = "Unknown" ∧
    (st.get_color_name k.1 k.2.1 k.2.2).2.accesses = st.accesses := by
  obtain ⟨hdb, hnd, hlen, pre, post, hcache, hpre⟩ := hInv
  have hfind : st.cache.find? (fun e => e.1 == (k.1, k.2.1, k.2.2)) =
      some (k, "Unknown") := by
    have hk : ((k.1, k.2.1, k.2.2) : RGB) = k := rfl
    simp only [hk, hcache]
    exact find?_tracked k pre post (fun e he => (hpre e he).2)
  simp [ColorLookup.get_color_name, hfind]

/-- Inserting a fresh key at the LRU head preserves the invariant: if at
most `capacity - 1` distinct keys are in play, the tracked entry is never
the evicted one. -/
theorem lru_push (db : ColorDatabase) (k : RGB) (S : Finset RGB)
    (hS : S.card + 1 ≤ cacheCapacity) (x : RGB) (hx : x ∈ S)
    (cache : List (RGB × String)) (v : String) (acc : Nat)
    (hnd : (cache.map Prod.fst).Nodup) (hlen : cache.length ≤ cacheCapacity)
    (pre post : List (RGB × String))
    (hcache : cache = pre ++ ((k, "Unknown") : RGB × String) :: post)
    (hpre : ∀ e ∈ pre, e.1 ∈ S ∧ e.1 ≠ k)
    (hnotin : ∀ e ∈ cache, e.1 ≠ x) :
    LruInv db k S (ColorLookup.mk db
      (if cacheCapacity < ((x, v) :: cache).length
       then ((x, v) :: cache).dropLast else (x, v) :: cache) acc) := by
  have hxk : x ≠ k := by
    intro hc
    exact hnotin (k, "Unknown")
      (by rw [hcache]; exact List.mem_append_right _ (List.mem_cons_self _ _)) hc.symm
  have hndfull : (((x, v) :: cache).map Prod.fst).Nodup := by
    simp only [List.map_cons, List.nodup_cons]
    refine ⟨?_, hnd⟩
    intro hmem
    obtain ⟨e, he, hke⟩ := List.mem_map.mp hmem
    exact hnotin e he hke
  by_cases hfull : cacheCapacity < ((x, v) :: cache).length
  · rw [if_pos hfull]
    have hlen2 : cache.length = cacheCapacity := by
      simp only [List.length_cons] at hfull
      omega
    have hndpre : (pre.map Prod.fst).Nodup := by
      rw [hcache, List.map_append] at hnd
      exact hnd.of_append_left
    have hxS2 : x ∈ S.erase k := Finset.mem_erase.mpr ⟨hxk, hx⟩
    have hprelen : pre.length + 2 ≤ cacheCapacity := by
      have h1 : (pre.map Prod.fst).toFinset ⊆ (S.erase k).erase x := by
        intro y hy
        obtain ⟨e, he, rfl⟩ := List.mem_map.mp (List.mem_toFinset.mp hy)
        refine Finset.mem_erase.mpr
          ⟨hnotin e (by rw [hcache]; exact List.mem_append_left _ he),
           Finset.mem_erase.mpr ⟨(hpre e he).2, (hpre e he).1⟩⟩
      have h2 := Finset.card_le_card h1
      rw [List.toFinset_card_of_nodup hndpre, List.length_map] at h2
      have h4 : (S.erase k).card ≤ S.card := Finset.card_erase_le
      have h5 : ((S.erase k).erase x).card = (S.erase k).card - 1 :=
        Finset.card_erase_of_mem hxS2
      have h6 : 0 < (S.erase k).card := Finset.card_pos.mpr ⟨x, hxS2⟩
      omega
    have hclen : cache.length = pre.length + post.length + 1 := by
      rw [hcache]; simp; omega
    have hpost : post ≠ [] := by
      intro hp
      rw [hp] at hclen
      simp at hclen
      simp [cacheCapacity] at hlen2 hprelen
      omega
    have hshape : (x, v) :: cache =
        (((x, v) :: pre) ++ [((k, "Unknown") : RGB × String)]) ++ post := by
      rw [hcache]; simp
    have hdrop : ((x, v) :: cache).dropLast =
        ((x, v) :: pre) ++ ((k, "Unknown") : RGB × String) :: post.dropLast := by
      rw [hshape, List.dropLast_append_of_ne_nil _ hpost]
      simp
    refine ⟨rfl, ?_, ?_, (x, v) :: pre, post.dropLast, hdrop, ?_⟩
    · exact ((((x, v) :: cache).dropLast_sublist).map Prod.fst).nodup hndfull
    · rw [List.length_dropLast, List.length_cons, hlen2]
      omega
    · intro e he
      rcases List.mem_cons.mp he with rfl | he2
      · exact ⟨hx, hxk⟩
      · exact hpre e he2
  · rw [if_neg hfull]
    refine ⟨rfl, hndfull, ?_, (x, v) :: pre, post, by rw [hcache]; rfl, ?_⟩
    · simp only [List.length_cons] at hfull ⊢
      omega
    · intro e he
      rcases List.mem_cons.mp he with rfl | he2
      · exact ⟨hx, hxk⟩
      · exact hpre e he2

/-- One step of read-only traffic with key drawn from `S` preserves the
invariant. -/
theorem lru_step (db : ColorDatabase) (k : RGB) (S : Finset RGB)
    (hS : S.card + 1 ≤ cacheCapacity) (x : RGB) (hx : x ∈ S) (st : ColorLookup)
    (hInv : LruInv db k S st) :
    LruInv db k S (st.get_color_name x.1 x.2.1 x.2.2).2 := by
  obtain ⟨hdb, hnd, hlen, pre, post, hcache, hpre⟩ := hInv
  subst hdb
  have hxeta : ((x.1, x.2.1, x.2.2) : RGB) = x := rfl
  cases hfind : st.cache.find? (fun e => e.1 == (x.1, x.2.1, x.2.2)) with
  | some e =>
    obtain ⟨a2, l₁, l₂, hl₁, hpa2, hl, herase⟩ :=
      List.exists_of_eraseP (List.mem_of_find?_eq_some hfind) (List.find?_some hfind)
    have hka2 : a2.1 = x := by
      have := eq_of_beq hpa2
      rwa [hxeta] at this
    have hnd2 : ((a2 :: (l₁ ++ l₂)).map Prod.fst).Nodup := by
      rw [hl, List.map_append, List.map_cons] at hnd
      have h0 := List.nodup_middle.mp hnd
      simpa using h0
    have hlen0 : st.cache.length = l₁.length + l₂.length + 1 := by
      rw [hl]; simp; omega
    simp only [ColorLookup.get_color_name, hfind]
    refine ⟨rfl, ?_, ?_, ?_⟩
    · rw [herase]
      simpa [hka2, hxeta] using hnd2
    · rw [List.length_cons, herase, List.length_append]
      omega
    · by_cases hxk : x = k
      · have hfind2 : st.cache.find? (fun e => e.1 == k) = some (k, "Unknown") := by
          rw [hcache]
          exact find?_tracked k pre post (fun e he => (hpre e he).2)
        have he2 : e = ((k, "Unknown") : RGB × String) := by
          have h0 := hfind
          simp only [hxeta, hxk] at h0
          rw [hfind2] at h0
          exact (Option.some.injEq _ _ ▸ h0).symm
        refine ⟨[], st.cache.eraseP (fun e => e.1 == (x.1, x.2.1, x.2.2)), ?_, ?_⟩
        · rw [List.nil_append, he2, hxeta, hxk]
        · intro e he
          cases he
      · by_cases hin : ∃ e2 ∈ pre, (e2.1 == (x.1, x.2.1, x.2.2)) = true
        · obtain ⟨e2, he2, hpe2⟩ := hin
          have her2 : st.cache.eraseP (fun e => e.1 == (x.1, x.2.1, x.2.2)) =
              pre.eraseP (fun e => e.1 == (x.1, x.2.1, x.2.2)) ++
                ((k, "Unknown") : RGB × String) :: post := by
            rw [hcache]
            exact @List.eraseP_append_left _ (fun e => e.1 == (x.1, x.2.1, x.2.2))
              e2 hpe2 pre (((k, "Unknown") : RGB × String) :: post) he2
          refine ⟨((x.1, x.2.1, x.2.2), e.2) ::
              pre.eraseP (fun e => e.1 == (x.1, x.2.1, x.2.2)), post, ?_, ?_⟩
          · rw [her2]; rfl
          · intro e3 he3
            rcases List.mem_cons.mp he3 with rfl | he4
            · exact ⟨by simpa [hxeta] using hx, by simpa [hxeta] using hxk⟩
            · exact hpre e3 ((List.eraseP_sublist pre).subset he4)
        · push_neg at hin
          have hko : (((k, "Unknown") : RGB × String).1 == (x.1, x.2.1, x.2.2)) ≠ true := by
            simp only [hxeta]
            simp [Ne.symm hxk]
          have her2 : st.cache.eraseP (fun e => e.1 == (x.1, x.2.1, x.2.2)) =
              pre ++ ((k, "Unknown") : RGB × String) ::
                post.eraseP (fun e => e.1 == (x.1, x.2.1, x.2.2)) := by
            rw [hcache, List.eraseP_append_right _ (fun e he => by simpa using hin e he),
              @List.eraseP_cons_of_neg _ ((k, "Unknown") : RGB × String) post
                (fun e => e.1 == (x.1, x.2.1, x.2.2)) hko]
          refine ⟨((x.1, x.2.1, x.2.2), e.2) :: pre,
              post.eraseP (fun e => e.1 == (x.1, x.2.1, x.2.2)), ?_, ?_⟩
          · rw [her2]; rfl
          · intro e3 he3
            rcases List.mem_cons.mp he3 with rfl | he4
            · exact ⟨by simpa [hxeta] using hx, by simpa [hxeta] using hxk⟩
            · exact hpre e3 he4
  | none =>
    have hnotin : ∀ e ∈ st.cache, e.1 ≠ x := by
      intro e he
      have h0 := List.find?_eq_none.mp hfind e he
      simpa [hxeta] using h0
    simp only [ColorLookup.get_color_name, hfind]
    exact lru_push st.db k S hS x hx st.cache _ _ hnd hlen pre post hcache hpre hnotin

/-- A whole read-only trace with keys drawn from `S` preserves the
invariant. -/
theorem lru_run (db : ColorDatabase) (k : RGB) (S : Finset RGB)
    (hS : S.card + 1 ≤ cacheCapacity) (ks : List RGB) (hks : ∀ x ∈ ks, x ∈ S)
    (st : ColorLookup) (hInv : LruInv db k S st) :
    LruInv db k S (resolveMany st ks) := by
  induction ks generalizing st with
  | nil => exact hInv
  | cons x t ih =>
    exact ih (fun y hy => hks y (List.mem_cons_of_mem x hy)) _
      (lru_step db k S hS x (hks x (List.mem_cons_self x t)) st hInv)

/-- C2: on a fresh resolver, resolving an in-range key that was never added
returns the `"Unknown"` sentinel with exactly one storage access; and after
any interleaved read-only trace touching fewer than 2048 distinct keys,
resolving the key again still returns `"Unknown"` and performs no further
storage access — the negative entry is never evicted. -/
theorem claim_C2 (db : ColorDatabase) (r g b : Int) (a : Nat)
    (hr : inRange r g b)
    (habs : ∀ n : String, (((r, g, b), n) : RGB × String) ∉ db.recs)
    (ks : List RGB) (hcard : ks.toFinset.card < cacheCapacity) :
    ((ColorLookup.mk db [] a).get_color_name r g b).1 = "Unknown" ∧
    ((ColorLookup.mk db [] a).get_color_name r g b).2.accesses = a + 1 ∧
    ((resolveMany ((ColorLookup.mk db [] a).get_color_name r g b).2 ks).get_color_name
        r g b).1 = "Unknown" ∧
    ((resolveMany ((ColorLookup.mk db [] a).get_color_name r g b).2 ks).get_color_name
        r g b).2.accesses =
      (resolveMany ((ColorLookup.mk db [] a).get_color_name r g b).2 ks).accesses := by
  have hfc : db.find_color r g b = none := by
    unfold ColorDatabase.find_color
    rw [if_pos hr]
    have h0 : db.recs.find? (fun e => e.1 == (r, g, b)) = none := by
      rw [List.find?_eq_none]
      intro e he hbe
      have hke : e.1 = (r, g, b) := eq_of_beq hbe
      exact habs e.2 (by rw [← hke, Prod.mk.eta]; exact he)
    rw [h0]
    rfl
  have hst1 : (ColorLookup.mk db [] a).get_color_name r g b =
      ("Unknown", ColorLookup.mk db [((r, g, b), "Unknown")] (a + 1)) := by
    simp [ColorLookup.get_color_name, hfc, hr, cacheCapacity]
  have hInv1 : LruInv db (r, g, b) ks.toFinset
      (ColorLookup.mk db [((r, g, b), "Unknown")] (a + 1)) :=
    ⟨rfl, by simp, by norm_num [cacheCapacity], [], [], rfl, by simp⟩
  have hS : (ks.toFinset).card + 1 ≤ cacheCapacity := by omega
  have hInv2 := lru_run db (r, g, b) ks.toFinset hS ks
    (fun x hx => List.mem_toFinset.mpr hx) _ hInv1
  have hfin := lru_hit db (r, g, b) ks.toFinset _ hInv2
  rw [hst1]
  exact ⟨rfl, rfl, hfin.1, hfin.2⟩

/-- Witness for C2: an empty store, the key (2,2,2), and a three-key trace
that revisits the key itself. -/
theorem claim_C2_witness :
    inRange 2 2 2 ∧
    (∀ n : String, (((2, 2, 2), n) : RGB × String) ∉ (ColorDatabase.mk []).recs) ∧
    ([((1 : Int), (1 : Int), (1 : Int)), (2, 2, 2), (3, 3, 3)] :
      List RGB).toFinset.card < cacheCapacity ∧
    (((ColorLookup.mk (ColorDatabase.mk []) [] 0).get_color_name 2 2 2).1 = "Unknown" ∧
     ((ColorLookup.mk (ColorDatabase.mk []) [] 0).get_color_name 2 2 2).2.accesses = 0 + 1 ∧
     ((resolveMany ((ColorLookup.mk (ColorDatabase.mk []) [] 0).get_color_name 2 2 2).2
         [(1, 1, 1), (2, 2, 2), (3, 3, 3)]).get_color_name 2 2 2).1 = "Unknown" ∧
     ((resolveMany ((ColorLookup.mk (ColorDatabase.mk []) [] 0).get_color_name 2 2 2).2
         [(1, 1, 1), (2, 2, 2), (3, 3, 3)]).get_color_name 2 2 2).2.accesses =
       (resolveMany ((ColorLookup.mk (ColorDatabase.mk []) [] 0).get_color_name 2 2 2).2
         [(1, 1, 1), (2, 2, 2), (3, 3, 3)]).accesses) :=
  ⟨by decide, fun n => List.not_mem_nil _, by decide,
    claim_C2 (ColorDatabase.mk []) 2 2 2 0 (by decide) (fun n => List.not_mem_nil _)
      [(1, 1, 1), (2, 2, 2), (3, 3, 3)] (by decide)⟩

/-! ### Claim C10 — hex round-trip -/

/-- Characters produced by `hexChar` parse back to their value and are
neither whitespace, signs, nor `'#'`. -/
theorem hexChar_facts (d : Nat) (h : d < 16) :
    hexDigitVal (hexChar d) = some d ∧ (hexChar d).isWhitespace = false ∧
    hexChar d ≠ '-' ∧ hexChar d ≠ '+' ∧ hexChar d ≠ '#' := by
  have hall : ∀ d : Fin 16, hexDigitVal (hexChar d.val) = some d.val ∧
      (hexChar d.val).isWhitespace = false ∧ hexChar d.val ≠ '-' ∧
      hexChar d.val ≠ '+' ∧ hexChar d.val ≠ '#' := by decide
  exact hall ⟨d, h⟩

/-- `int(_, 16)` on a two-hex-digit slice. -/
theorem pyIntHex_pair (c1 c2 : Char) (d1 d2 : Nat)
    (h1 : hexDigitVal c1 = some d1) (h2 : hexDigitVal c2 = some d2)
    (hw1 : c1.isWhitespace = false) (hw2 : c2.isWhitespace = false)
    (hs1 : c1 ≠ '-') (hs2 : c1 ≠ '+') :
    pyIntHex [c1, c2] = some ((16 * d1 + d2 : Nat) : Int) := by
  have hstrip : pyStrip [c1, c2] = [c1, c2] := by
    simp [pyStrip, List.dropWhile_cons, hw1, hw2]
  simp [pyIntHex, pyInt, hstrip, hs1, hs2, digitsVal, digitsValCore, h1, h2]

/-- One hex digit for `n < 16`. -/
theorem natToHex_lt (n : Nat) (h : n < 16) : natToHex n = [hexChar n] := by
  simp [natToHex, natToHexAux, h]

/-- Two hex digits for `16 ≤ n < 256`. -/
theorem natToHex_two (n : Nat) (h16 : 16 ≤ n) (h : n < 256) :
    natToHex n = [hexChar (n / 16), hexChar (n % 16)] := by
  obtain ⟨m, rfl⟩ : ∃ m, n = m + 1 := ⟨n - 1, by omega⟩
  simp [natToHex, natToHexAux, show ¬(m + 1 < 16) by omega,
    show (m + 1) / 16 < 16 by omega]

/-- `f"{n:02x}"` for a byte value is exactly the two digit characters. -/
theorem format02x_eq (n : Int) (h0 : 0 ≤ n) (h : n ≤ 255) :
    format02x n = [hexChar (n.toNat / 16), hexChar (n.toNat % 16)] := by
  unfold format02x
  rw [if_neg (by omega)]
  by_cases h16 : n.toNat < 16
  · rw [natToHex_lt _ h16]
    have hd : n.toNat / 16 = 0 := by omega
    have hm : n.toNat % 16 = n.toNat := by omega
    rw [hd, hm]
    rfl
  · rw [natToHex_two _ (by omega) (by omega)]
    simp

/-- Parsing inverts the byte format. -/
theorem parse_format (n : Int) (h0 : 0 ≤ n) (h : n ≤ 255) :
    pyIntHex (format02x n) = some n := by
  rw [format02x_eq n h0 h]
  have hd : n.toNat / 16 < 16 := by omega
  have hm : n.toNat % 16 < 16 := by omega
  obtain ⟨p1, q1, r1, s1, t1⟩ := hexChar_facts _ hd
  obtain ⟨p2, q2, r2, s2, t2⟩ := hexChar_facts _ hm
  rw [pyIntHex_pair _ _ _ _ p1 p2 q1 q2 r1 s1]
  congr 1
  have : 16 * (n.toNat / 16) + n.toNat % 16 = n.toNat := by omega
  rw [this]
  exact Int.toNat_of_nonneg h0

/-- The byte format of `16 * d1 + d2` recovers the two digit characters. -/
theorem format_pair (d1 d2 : Nat) (h1 : d1 < 16) (h2 : d2 < 16) :
    format02x ((16 * d1 + d2 : Nat) : Int) = [hexChar d1, hexChar d2] := by
  rw [format02x_eq _ (by positivity) (by push_cast; omega)]
  have ht : ((16 * d1 + d2 : Nat) : Int).toNat = 16 * d1 + d2 := by omega
  rw [ht, show (16 * d1 + d2) / 16 = d1 by omega, show (16 * d1 + d2) % 16 = d2 by omega]

/-- The sixteen lowercase hex digit characters, `"0123456789abcdef"`. -/
def lowerHexChars : List Char := (List.range 16).map hexChar

/-- Every lowercase hex digit character parses, has value below 16, is
reproduced by `hexChar`, and is neither whitespace, a sign, nor `'#'`. -/
theorem lowerHex_facts : ∀ c ∈ lowerHexChars,
    hexDigitVal c = some ((hexDigitVal c).getD 0) ∧
    (hexDigitVal c).getD 0 < 16 ∧
    hexChar ((hexDigitVal c).getD 0) = c ∧
    c.isWhitespace = false ∧ c ≠ '-' ∧ c ≠ '+' ∧ c ≠ '#' := by decide

/-- Evaluation of `hex_to_rgb` on a string of one `'#'` and six characters:
the three two-character slices are parsed. -/
theorem hex_to_rgb_six (c1 c2 c3 c4 c5 c6 : Char) (h1 : c1 ≠ '#') (s : String)
    (hs : s.toList = '#' :: [c1, c2, c3, c4, c5, c6]) :
    ColorLookup.hex_to_rgb s =
      match pyIntHex [c1, c2], pyIntHex [c3, c4], pyIntHex [c5, c6] with
      | some x, some y, some z => some (x, y, z)
      | _, _, _ => none := by
  unfold ColorLookup.hex_to_rgb
  rw [hs]
  have hb1 : (c1 == '#') = false := by simpa using h1
  simp [List.dropWhile_cons, hb1, slice2]

/-- C10: for byte values the hex formatting round-trips through parsing,
and any 6-lowercase-hex-digit string round-trips through `hex_to_rgb` and
back through `rgb_to_hex`. -/
theorem claim_C10 :
    (∀ r g b : Int, 0 ≤ r → r ≤ 255 → 0 ≤ g → g ≤ 255 → 0 ≤ b → b ≤ 255 →
      ColorLookup.hex_to_rgb (ColorLookup.rgb_to_hex r g b) = some (r, g, b)) ∧
    (∀ s : String, s.toList.length = 6 → (∀ c ∈ s.toList, c ∈ lowerHexChars) →
      ∃ x y z : Int, ColorLookup.hex_to_rgb ("#" ++ s) = some (x, y, z) ∧
        ColorLookup.rgb_to_hex x y z = "#" ++ s) := by
  constructor
  · intro r g b hr0 hr1 hg0 hg1 hb0 hb1
    have e1 := format02x_eq r hr0 hr1
    have e2 := format02x_eq g hg0 hg1
    have e3 := format02x_eq b hb0 hb1
    obtain ⟨p1, q1, s1, t1, u1⟩ := hexChar_facts (r.toNat / 16) (by omega)
    have hs : (ColorLookup.rgb_to_hex r g b).toList =
        '#' :: [hexChar (r.toNat / 16), hexChar (r.toNat % 16),
          hexChar (g.toNat / 16), hexChar (g.toNat % 16),
          hexChar (b.toNat / 16), hexChar (b.toNat % 16)] := by
      rw [show (ColorLookup.rgb_to_hex r g b).toList =
        '#' :: (format02x r ++ format02x g ++ format02x b) from rfl, e1, e2, e3]
      rfl
    rw [hex_to_rgb_six _ _ _ _ _ _ u1 _ hs, ← e1, ← e2, ← e3,
      parse_format r hr0 hr1, parse_format g hg0 hg1, parse_format b hb0 hb1]
  · intro s hlen hmem
    obtain ⟨cs⟩ := s
    rcases cs with _ | ⟨c1, _ | ⟨c2, _ | ⟨c3, _ | ⟨c4, _ | ⟨c5, _ | ⟨c6, _ | ⟨c7, t⟩⟩⟩⟩⟩⟩⟩ <;>
      simp only [String.toList, List.length_cons, List.length_nil] at hlen <;>
      try omega
    have hm : ∀ c ∈ [c1, c2, c3, c4, c5, c6], c ∈ lowerHexChars := hmem
    obtain ⟨P1, Q1, R1, W1, S1, T1, U1⟩ := lowerHex_facts c1 (hm c1 (by simp))
    obtain ⟨P2, Q2, R2, W2, S2, T2, U2⟩ := lowerHex_facts c2 (hm c2 (by simp))
    obtain ⟨P3, Q3, R3, W3, S3, T3, U3⟩ := lowerHex_facts c3 (hm c3 (by simp))
    obtain ⟨P4, Q4, R4, W4, S4, T4, U4⟩ := lowerHex_facts c4 (hm c4 (by simp))
    obtain ⟨P5, Q5, R5, W5, S5, T5, U5⟩ := lowerHex_facts c5 (hm c5 (by simp))
    obtain ⟨P6, Q6, R6, W6, S6, T6, U6⟩ := lowerHex_facts c6 (hm c6 (by simp))
    have hs6 : ("#" ++ String.mk [c1, c2, c3, c4, c5, c6]).toList =
        '#' :: [c1, c2, c3, c4, c5, c6] := rfl
    rw [hex_to_rgb_six c1 c2 c3 c4 c5 c6 U1 _ hs6,
      pyIntHex_pair c1 c2 _ _ P1 P2 W1 W2 S1 T1,
      pyIntHex_pair c3 c4 _ _ P3 P4 W3 W4 S3 T3,
      pyIntHex_pair c5 c6 _ _ P5 P6 W5 W6 S5 T5]
    refine ⟨_, _, _, rfl, ?_⟩
    show ColorLookup.rgb_to_hex _ _ _ = _
    unfold ColorLookup.rgb_to_hex
    rw [format_pair _ _ Q1 Q2, format_pair _ _ Q3 Q4, format_pair _ _ Q5 Q6,
      R1, R2, R3, R4, R5, R6]
    rfl

/-- Witness for C10 at (255, 0, 170) and at the string "ff00aa". -/
theorem claim_C10_witness :
    ColorLookup.hex_to_rgb (ColorLookup.rgb_to_hex 255 0 170) = some (255, 0, 170) ∧
    ∃ x y z : Int, ColorLookup.hex_to_rgb ("#" ++ "ff00aa") = some (x, y, z) ∧
      ColorLookup.rgb_to_hex x y z = "#" ++ "ff00aa" :=
  ⟨claim_C10.1 255 0 170 (by decide) (by decide) (by decide) (by decide) (by decide)
      (by decide),
   claim_C10.2 "ff00aa" (by decide) (by decide)⟩
